import Mathlib

/-!
Shallow embedding of the Label Store subsystem of `src/content.js`
(Google Docs Labels Chrome extension).

Modelling conventions, used throughout:

* JSON values are modelled by the mutual inductive family `Json` /
  `JsonList` / `JsonFields` below (`JsonList`/`JsonFields` are plain list
  spines, used instead of nested `List` so that decidable equality can be
  derived; `JsonList.toList`/`JsonList.ofList` convert at the boundary).
* A value stored in `localStorage` is a string; it is modelled as `Raw`:
  either `Raw.json j` (a string that `JSON.parse` turns into the JSON value
  `j`) or `Raw.malformed msg` (a string on which `JSON.parse` throws, with
  `msg` the engine-specific error message).  `JSON.stringify` is `Raw.json`;
  this is faithful because `JSON.parse (JSON.stringify v) = v` and
  `JSON.stringify` is injective on the JSON values this program handles.
* `localStorage` is modelled as an association list `Store` in iteration
  order; the `localStorage.key(i)` enumeration is the list order, `getItem`
  is first-match lookup, `setItem` replaces in place or appends.  Substrate
  writes are modelled as always succeeding (a quota exception from
  `localStorage.setItem` is an environmental failure, noted where
  relevant).
* JavaScript truthiness tests on record fields (`data.labels || []`,
  `data.title || 'Untitled'`, `data.url || ...`, `doc.url`,
  `!importData.label`) are modelled for string / array / absent / falsy
  values, the only shapes this program itself writes.  A *truthy
  non-string* `title`/`url`/`label` or *truthy non-array* `labels` field
  behaves differently in JS (a number has no `.includes`, a string searches
  substrings); those shapes are outside the model and are noted where they
  would arise.
-/

namespace GDLabels

mutual

/-- JSON value model (object fields in insertion order). -/
inductive Json where
  | str (s : String)
  | num (n : Int)
  | bool (b : Bool)
  | null
  | arr (elems : JsonList)
  | obj (fields : JsonFields)
  deriving DecidableEq

/-- Spine of a JSON array. -/
inductive JsonList where
  | nil
  | cons (hd : Json) (tl : JsonList)
  deriving DecidableEq

/-- Spine of a JSON object: fields in insertion order. -/
inductive JsonFields where
  | nil
  | cons (key : String) (val : Json) (tl : JsonFields)
  deriving DecidableEq

end

/-- View a JSON array spine as a Lean list. -/
def JsonList.toList : JsonList → List Json
  | .nil => []
  | .cons h t => h :: t.toList

/-- Build a JSON array spine from a Lean list. -/
def JsonList.ofList : List Json → JsonList
  | [] => .nil
  | h :: t => .cons h (JsonList.ofList t)

/-- A JS array literal holding the given elements. -/
def Json.arrOf (l : List Json) : Json := Json.arr (JsonList.ofList l)

/-- Property read on a JSON object (first occurrence). -/
def JsonFields.lookup : JsonFields → String → Option Json
  | .nil, _ => none
  | .cons k' v rest, k => if k' = k then some v else rest.lookup k

/-- Property read `j.k`; `none` models JS `undefined` (also the result of a
property read on a non-object value such as an array or primitive). -/
def Json.getField : Json → String → Option Json
  | .obj fields, k => fields.lookup k
  | _, _ => none

/-- Property write on an object's field list: replace in place or append,
matching JS property insertion order. -/
def JsonFields.setF : JsonFields → String → Json → JsonFields
  | .nil, k, v => .cons k v .nil
  | .cons k' v' rest, k, v =>
      if k' = k then .cons k v rest else .cons k' v' (rest.setF k v)

/-- Assignment `o.k = v` on a JSON object.  (The non-object branch is
unreachable in the call sites modelled here; assigning a property on a
primitive throws in strict mode and is handled explicitly where it can
occur.) -/
def Json.setField : Json → String → Json → Json
  | .obj fields, k, v => .obj (fields.setF k v)
  | j, _, _ => j

/-- Membership test `xs.includes(x)` on a JSON array (SameValueZero on these
shapes is structural equality). -/
def jsonIncludes : List Json → Json → Bool
  | [], _ => false
  | y :: ys, x => if y = x then true else jsonIncludes ys x

/-- A raw `localStorage` value: either a string parsing to a JSON value, or
a string on which `JSON.parse` throws with message `msg`. -/
inductive Raw where
  | json (j : Json)
  | malformed (msg : String)
  deriving DecidableEq

/-- Model of `JSON.parse`: succeeds exactly on well-formed raw values. -/
def parse : Raw → Option Json
  | Raw.json j => some j
  | Raw.malformed _ => none

/-- Model of `JSON.stringify` on a JSON value. -/
def stringify (j : Json) : Raw := Raw.json j

/-- The `localStorage` substrate: key/value pairs in iteration order. -/
abbrev Store := List (String × Raw)

/-- Model of `localStorage.getItem`. -/
def getItem : Store → String → Option Raw
  | [], _ => none
  | (k', v) :: rest, k => if k' = k then some v else getItem rest k

/-- Model of `localStorage.setItem`: replace in place, or append a new
key. -/
def setItem : Store → String → Raw → Store
  | [], k, v => [(k, v)]
  | (k', v') :: rest, k, v =>
      if k' = k then (k, v) :: rest else (k', v') :: setItem rest k v

/-! Storage keys and document-id extraction (content.js lines 19–47). -/

/-- The fixed key prefix `'gd-labels-'` distinguishing this engine's
entries. -/
def storageMarker : String := "gd-labels-"

/-- `getStorageKey` (line 45): `'gd-labels-' + docId`.  The JS fallback to
the ambient `documentId` is modelled by the caller always passing the
intended document id. -/
def getStorageKey (docId : String) : String := storageMarker ++ docId

/-- Default URL reconstructed for a record that stores none
(line 128). -/
def defaultDocUrl (docId : String) : String :=
  "https://docs.google.com/document/d/" ++ docId ++ "/edit"

/-- Character class `[a-zA-Z0-9_-]` of the document-id regex. -/
def isIdChar (c : Char) : Bool := c.isAlphanum || c = '_' || c = '-'

/-- Longest prefix of id characters (the `+` of the regex, greedy). -/
def idTake : List Char → List Char
  | [] => []
  | c :: rest => if isIdChar c then c :: idTake rest else []

/-- The literal part `/document/d/` of the document-id regex. -/
def markerChars : List Char := "/document/d/".toList

/-- Scan for the first position where `/document/d/` is followed by at
least one id character, as the regex
`/\/document\/d\/([a-zA-Z0-9_-]+)/` does, and return the capture. -/
def findIdChars : List Char → Option (List Char)
  | [] => none
  | c :: rest =>
      if markerChars.isPrefixOf (c :: rest) then
        let idc := idTake ((c :: rest).drop markerChars.length)
        if idc = [] then findIdChars rest else some idc
      else findIdChars rest

/-- `getDocumentIdFromUrl` (lines 25–28). -/
def getDocumentIdFromUrl (url : String) : Option String :=
  (findIdChars url.toList).map fun idc => String.mk idc

/-! Record decoding (the normalization shared by `findDocumentsWithLabel`
lines 124–137; `loadLabels` and `checkAndReloadLabels` use the `labels`
part of it). -/

/-- Evaluation of `data.labels || []`: an array field is kept, an absent or
falsy field (and any property read on a non-object) gives `[]`.  A truthy
non-array `labels` field is outside the model (see header). -/
def labelsField (data : Json) : List Json :=
  match data.getField "labels" with
  | some (Json.arr el) => el.toList
  | _ => []

/-- Evaluation of `data.title || 'Untitled'` for the string/absent/falsy
shapes in the model. -/
def titleField (data : Json) : String :=
  match data.getField "title" with
  | some (Json.str t) => if t = "" then "Untitled" else t
  | _ => "Untitled"

/-- Evaluation of `data.url || dflt` for the string/absent/falsy shapes in
the model. -/
def urlField (data : Json) (dflt : String) : String :=
  match data.getField "url" with
  | some (Json.str u) => if u = "" then dflt else u
  | _ => dflt

/-- A document's label record: ordered labels plus display metadata. -/
structure LabelRecord where
  labels : List Json
  title : String
  url : String
  deriving DecidableEq

/-- Decoding of one stored entry, factored out of `findDocumentsWithLabel`
(lines 124–137): `none` on a parse failure (the `catch` skips the entry); a
bare array is wrapped with default title and the reconstructed URL;
otherwise the `labels`/`title`/`url` fields are read with their
defaults. -/
def decodeRecord (docId : String) (raw : Raw) : Option LabelRecord :=
  match parse raw with
  | none => none
  | some (Json.arr el) => some ⟨el.toList, "Untitled", defaultDocUrl docId⟩
  | some data =>
      some ⟨labelsField data, titleField data, urlField data (defaultDocUrl docId)⟩

/-- Encoding of a record, as `saveLabels` (lines 53–58) builds it before
`JSON.stringify`. -/
def encodeRecordJson (labels : List Json) (title url : String) : Json :=
  Json.obj (.cons "labels" (Json.arrOf labels)
    (.cons "title" (Json.str title) (.cons "url" (Json.str url) .nil)))

/-- Stored string form of a record. -/
def encode (r : LabelRecord) : Raw :=
  stringify (encodeRecordJson r.labels r.title r.url)

/-- One row of the scan result of `findDocumentsWithLabel`. -/
structure DocInfo where
  id : String
  title : String
  url : String
  isCurrent : Bool
  deriving DecidableEq

/-- `findDocumentsWithLabel` (lines 114–154): scan all stored keys with the
engine's prefix in enumeration order, decode each entry (skipping parse
failures), and keep the documents whose `labels` contain `labelName`
exactly.  `key.replace('gd-labels-', '')` removes the leading prefix, which
under the `startsWith` guard is dropping its length. -/
def findDocumentsWithLabel (labelName : String) (currentDocId : String)
    (store : Store) : List DocInfo :=
  store.filterMap fun kv =>
    if kv.1.startsWith storageMarker then
      let docId := kv.1.drop storageMarker.length
      match decodeRecord docId kv.2 with
      | none => none
      | some r =>
          if jsonIncludes r.labels (Json.str labelName) then
            some ⟨docId, r.title, r.url, decide (docId = currentDocId)⟩
          else none
    else none

/-! The engine's per-session state and the LabelStore / ChangeWatcher
operations (content.js lines 9–16, 50–111, 599–603, 439–450). -/

/-- Host context supplied by the page: the active document's id, its title
(`getDocumentTitle()`), and `window.location.href`. -/
structure Host where
  docId : String
  title : String
  href : String
  deriving DecidableEq

/-- Session state: the substrate plus the in-memory working copy `labels`
and the change-detection snapshot.  `lastKnown` models the string variable
`lastKnownLabelsJson` as the labels array it stringifies (every assignment
in the engine stores `JSON.stringify` of an array; the initial `''` exists
only before the first load and is outside the claims).  String comparison
of the stringified arrays coincides with list equality because `stringify`
is injective. -/
structure Engine where
  store : Store
  labels : List Json
  lastKnown : List Json
  deriving DecidableEq

/-- `saveLabels` (lines 50–63): persist `{labels, title, url}` under the
active document's key and update the snapshot.  The `try`/`catch` around
`setItem` only guards quota failures, which the substrate model does not
raise. -/
def saveLabels (host : Host) (e : Engine) : Engine :=
  { e with
    store := setItem e.store (getStorageKey host.docId)
      (encode ⟨e.labels, host.title, host.href⟩),
    lastKnown := e.labels }

/-- `loadLabels` (lines 66–85): read the active document's value; a bare
array is taken as the labels, an object contributes `data.labels || []`; a
parse failure degrades to the empty list (the `catch`); an absent value
leaves `labels` unchanged.  In every case `lastKnownLabelsJson` is set to
the stringified result. -/
def loadLabels (host : Host) (e : Engine) : Engine :=
  match getItem e.store (getStorageKey host.docId) with
  | none => { e with lastKnown := e.labels }
  | some raw =>
      match parse raw with
      | none => { e with labels := [], lastKnown := [] }
      | some (Json.arr el) => { e with labels := el.toList, lastKnown := el.toList }
      | some data => { e with labels := labelsField data, lastKnown := labelsField data }

/-- The re-read of the active document's labels performed by
`checkAndReloadLabels` (lines 91–100): `none` when the read value fails to
parse (the `catch` path). -/
def readCurrentLabels (s : Store) (key : String) : Option (List Json) :=
  match getItem s key with
  | none => some []
  | some raw =>
      match parse raw with
      | none => none
      | some (Json.arr el) => some el.toList
      | some data => some (labelsField data)

/-- `checkAndReloadLabels` (lines 88–111).  The returned number counts the
invocations of the refresh callback (`updateLabelsDisplay`). -/
def checkAndReloadLabels (host : Host) (e : Engine) : Engine × Nat :=
  match readCurrentLabels e.store (getStorageKey host.docId) with
  | none => (e, 0)
  | some cur =>
      if cur = e.lastKnown then (e, 0)
      else ({ e with labels := cur, lastKnown := cur }, 1)

/-- The clamped start index of `Array.prototype.splice`: a negative index
counts from the end (clamped to 0), a nonnegative one is clamped to the
length. -/
def spliceIndex (len : Nat) (i : Int) : Nat :=
  if i < 0 then ((len : Int) + i).toNat else min i.toNat len

/-- `labels.splice(index, 1)` as a pure function: remove (at most) one
element at the clamped start index. -/
def spliceRemoveOne (l : List Json) (i : Int) : List Json :=
  let s := spliceIndex l.length i
  l.take s ++ l.drop (s + 1)

/-- `removeLabel` (lines 599–603): splice out the index and persist.  No
index check of any kind is performed. -/
def removeLabel (host : Host) (index : Int) (e : Engine) : Engine :=
  saveLabels host { e with labels := spliceRemoveOne e.labels index }

/-- `labels.splice(target, 0, x)` as a pure function: insert `x` at the
clamped start index. -/
def spliceInsertOne (l : List Json) (i : Nat) (x : Json) : List Json :=
  let s := min i l.length
  l.take s ++ x :: l.drop s

/-- The reorder performed by the drop handler (lines 443–446): read the
dragged element, splice it out, splice it back in at the target index
computed against the array after removal.  The handler fires only with
distinct dataset indices of rendered rows, hence in range; the `none`
branch is unreachable there. -/
def reorderLabel (l : List Json) (fromIndex toIndex : Nat) : List Json :=
  match l.get? fromIndex with
  | none => l
  | some x =>
      spliceInsertOne (l.take fromIndex ++ l.drop (fromIndex + 1)) toIndex x

/-! Import (content.js lines 170–224). -/

/-- Result object of `importLabel`.  The success literal at lines 217–220
carries only `success` and `message`; `importedCount := none` models the
absence of the field from the returned object. -/
structure ImportResult where
  success : Bool
  message : String
  importedCount : Option Nat
  deriving DecidableEq

/-- Evaluation of the validation read of `importData.label`
(`!importData.label` fails on a missing or falsy field): `some` exactly for
a non-empty string label.  A truthy non-string label is outside the model
(see header). -/
def payloadLabel (j : Json) : Option String :=
  match j.getField "label" with
  | some (Json.str s) => if s = "" then none else some s
  | _ => none

/-- Evaluation of the validation read of `importData.documents`
(`Array.isArray`). -/
def payloadDocs (j : Json) : Option (List Json) :=
  match j.getField "documents" with
  | some (Json.arr el) => some el.toList
  | _ => none

/-- Evaluation of `doc.url` with its truthiness guard (line 182): `some`
exactly for a non-empty string url; a truthy non-string url is outside the
model. -/
def docUrlField (d : Json) : Option String :=
  match d.getField "url" with
  | some (Json.str u) => if u = "" then none else some u
  | _ => none

/-- Evaluation of `doc.title || 'Untitled'` (line 188). -/
def docTitleField (d : Json) : String :=
  match d.getField "title" with
  | some (Json.str t) => if t = "" then "Untitled" else t
  | _ => "Untitled"

/-- The initial `existingData` object of line 188:
`{ labels: [], title: doc.title || 'Untitled', url: doc.url }`. -/
def defaultExisting (d : Json) (url : String) : Json :=
  Json.obj (.cons "labels" (Json.arrOf [])
    (.cons "title" (Json.str (docTitleField d)) (.cons "url" (Json.str url) .nil)))

/-- The per-entry read of lines 190–203: an absent value or a parse failure
(the inner `catch`) keeps the default `existingData`; a bare array replaces
its `labels`; an object replaces `existingData` wholly, normalizing
`labels` with `existingData.labels = existingData.labels || []` (an array
field is kept, an absent or falsy one becomes `[]`; a truthy non-array one
is outside the model).  A stored *primitive* JSON value makes the
subsequent property assignment throw a `TypeError` under `'use strict'`,
which propagates out of the loop; the error message is engine-specific. -/
def readExisting (d : Json) (url key : String) (s : Store) : Except String Json :=
  match getItem s key with
  | none => Except.ok (defaultExisting d url)
  | some raw =>
      match parse raw with
      | none => Except.ok (defaultExisting d url)
      | some (Json.arr el) =>
          Except.ok ((defaultExisting d url).setField "labels" (Json.arr el))
      | some (Json.obj fields) =>
          match fields.lookup "labels" with
          | some (Json.arr _) => Except.ok (Json.obj fields)
          | _ => Except.ok ((Json.obj fields).setField "labels" (Json.arrOf []))
      | some _ => Except.error "TypeError"

/-- One iteration of the `importData.documents.forEach` body
(lines 181–211): skip entries lacking a usable url or whose url yields no
document id; otherwise read (or default) the target record and, when the
label is absent from its `labels`, push it, persist, and count it. -/
def importDoc (labelName : String) (d : Json) (s : Store) :
    Except String (Store × Nat) :=
  match docUrlField d with
  | none => Except.ok (s, 0)
  | some url =>
      match getDocumentIdFromUrl url with
      | none => Except.ok (s, 0)
      | some docId =>
          match readExisting d url (getStorageKey docId) s with
          | Except.error m => Except.error m
          | Except.ok ex =>
              let ls := labelsField ex
              if jsonIncludes ls (Json.str labelName) then Except.ok (s, 0)
              else
                Except.ok
                  (setItem s (getStorageKey docId)
                    (stringify (ex.setField "labels"
                      (Json.arrOf (ls ++ [Json.str labelName])))), 1)

/-- Outcome of the `forEach` loop: on an exception the writes already
performed persist (`localStorage` is not transactional), so the store at
the point of failure is carried along. -/
inductive LoopResult where
  | ok (store : Store) (count : Nat)
  | err (store : Store) (count : Nat) (msg : String)
  deriving DecidableEq

/-- The `forEach` loop over `importData.documents`, threading the substrate
and the `importedCount` counter; an exception aborts the remaining
entries. -/
def importLoop (labelName : String) (docs : List Json) (s : Store)
    (count : Nat) : LoopResult :=
  match docs with
  | [] => LoopResult.ok s count
  | d :: rest =>
      match importDoc labelName d s with
      | Except.error m => LoopResult.err s count m
      | Except.ok (s', added) => importLoop labelName rest s' (count + added)

/-- `importLabel` (lines 170–224).  The second component is the final value
of the internal `importedCount` counter (on success it also appears in the
message; the returned object has no `importedCount` field).  On success the
active document's labels are reloaded (line 214); an exception reaches the
outer `catch` (line 221) instead, skipping the reload. -/
def importLabel (host : Host) (input : Raw) (e : Engine) :
    ImportResult × Nat × Engine :=
  match input with
  | Raw.malformed m => (⟨false, "Invalid JSON: " ++ m, none⟩, 0, e)
  | Raw.json importData =>
      match payloadLabel importData, payloadDocs importData with
      | some labelName, some docs =>
          match importLoop labelName docs e.store 0 with
          | LoopResult.err s' n m =>
              (⟨false, "Invalid JSON: " ++ m, none⟩, n, { e with store := s' })
          | LoopResult.ok s' n =>
              (⟨true,
                "Imported label \"" ++ labelName ++ "\" to " ++ Nat.repr n ++
                  " document(s).", none⟩,
               n, loadLabels host { e with store := s' })
      | _, _ =>
          (⟨false, "Invalid JSON format. Expected \x7b label, documents \x7d", none⟩,
           0, e)

/-- `findDocumentsWithLabel` threaded through the session state: the scan
body (lines 114–154) contains no substrate write and no assignment to the
session variables, so it returns the state it was given. -/
def findDocumentsWithLabelRun (labelName : String) (host : Host) (e : Engine) :
    List DocInfo × Engine :=
  (findDocumentsWithLabel labelName host.docId e.store, e)

/-! Concrete sample data for the closed instances below. -/

/-- Sample document URL carrying the document id `AAA`. -/
def sampleUrl : String := "https://docs.google.com/document/d/AAA/edit"

/-- Sample export-payload document entry. -/
def sampleDoc : Json :=
  Json.obj (.cons "title" (Json.str "Report") (.cons "url" (Json.str sampleUrl) .nil))

/-- Sample import payload `{label: "q", documents: [sampleDoc]}`. -/
def samplePayload : Json :=
  Json.obj (.cons "label" (Json.str "q")
    (.cons "documents" (Json.arrOf [sampleDoc]) .nil))

/-- Sample host context. -/
def sampleHost : Host := ⟨"cur", "T", "H"⟩

/-- The record that importing `samplePayload` into an empty substrate
writes under `gd-labels-AAA`. -/
def sampleStoredRecord : Json :=
  Json.obj (.cons "labels" (Json.arrOf [Json.str "q"])
    (.cons "title" (Json.str "Report") (.cons "url" (Json.str sampleUrl) .nil)))

/-- A substrate in which document `AAA` already carries label `"q"`. -/
def sampleStore : Store := [("gd-labels-AAA", Raw.json sampleStoredRecord)]

/-! Basic lemmas about the model's primitives. -/

theorem JsonList.toList_ofList : ∀ l : List Json, (JsonList.ofList l).toList = l
  | [] => rfl
  | x :: t => by simp [JsonList.ofList, JsonList.toList, JsonList.toList_ofList t]

theorem getItem_setItem_self : ∀ (s : Store) (k : String) (v : Raw),
    getItem (setItem s k v) k = some v
  | [], k, v => by simp [setItem, getItem]
  | (k0, v0) :: rest, k, v => by
      by_cases h : k0 = k <;>
        simp [setItem, getItem, h, getItem_setItem_self rest k v]

theorem getItem_setItem_ne : ∀ (s : Store) (k k' : String) (v : Raw), k' ≠ k →
    getItem (setItem s k v) k' = getItem s k'
  | [], k, k', v, h => by simp [setItem, getItem, Ne.symm h]
  | (k0, v0) :: rest, k, k', v, h => by
      by_cases h0 : k0 = k
      · subst h0
        simp [setItem, getItem, Ne.symm h]
      · simp [setItem, getItem, h0, getItem_setItem_ne rest k k' v h]

theorem spliceRemoveOne_eq_eraseIdx (l : List Json) (i : Int) :
    spliceRemoveOne l i = l.eraseIdx (spliceIndex l.length i) := by
  simp [spliceRemoveOne, List.eraseIdx_eq_take_drop_succ]

theorem eraseIdx_spliceIndex (l : List Json) (i : Int) :
    l.eraseIdx (spliceIndex l.length i)
      = l.eraseIdx (if i < 0 then ((l.length : Int) + i).toNat else i.toNat) := by
  unfold spliceIndex
  by_cases h : i < 0
  · simp [h]
  · simp only [h, if_false]
    rcases le_or_lt i.toNat l.length with h1 | h1
    · rw [min_eq_left h1]
    · rw [min_eq_right (le_of_lt h1), List.eraseIdx_of_length_le (le_refl _),
        List.eraseIdx_of_length_le (le_of_lt h1)]

theorem take_cons_drop_eq_insertIdx :
    ∀ (l : List Json) (i : Nat), i ≤ l.length → ∀ x : Json,
      l.take i ++ x :: l.drop i = l.insertIdx i x
  | _, 0, _, x => by simp [List.insertIdx]
  | [], n + 1, h, x => by simp at h
  | a :: t, n + 1, h, x => by
      simp [List.insertIdx_succ_cons,
        take_cons_drop_eq_insertIdx t n (Nat.le_of_succ_le_succ h) x]

theorem spliceInsertOne_eq_insertIdx (l : List Json) (i : Nat) (x : Json)
    (h : i ≤ l.length) : spliceInsertOne l i x = l.insertIdx i x := by
  rw [spliceInsertOne, min_eq_left h]
  exact take_cons_drop_eq_insertIdx l i h x

theorem reorderLabel_eq_of_get_eq (l : List Json) (i j : Nat) (x : Json)
    (h : l.get? i = some x) :
    reorderLabel l i j = spliceInsertOne (l.take i ++ l.drop (i + 1)) j x := by
  unfold reorderLabel
  rw [h]

theorem insertIdx_get_eraseIdx : ∀ (l : List Json) (i : Nat) (h : i < l.length),
    (l.eraseIdx i).insertIdx i (l.get ⟨i, h⟩) = l
  | a :: t, 0, _ => by simp [List.eraseIdx, List.insertIdx]
  | a :: t, n + 1, h => by
      simp only [List.eraseIdx, List.insertIdx_succ_cons, List.get_cons_succ]
      exact congrArg (a :: ·) (insertIdx_get_eraseIdx t n (Nat.lt_of_succ_lt_succ h))

/-! C1: removeLabel. -/

/-- C1 is false as stated: `removeLabel` does not fail on an out-of-range
index.  At index `-1` on `["a","b"]` it removes the *last* element (JS
splice counts a negative start from the end) and persists the result. -/
theorem removeLabel_neg_index_removes_last :
    (removeLabel ⟨"cur", "T", "H"⟩ (-1)
        ⟨[], [Json.str "a", Json.str "b"], []⟩).labels = [Json.str "a"] ∧
    getItem (removeLabel ⟨"cur", "T", "H"⟩ (-1)
        ⟨[], [Json.str "a", Json.str "b"], []⟩).store (getStorageKey "cur")
      = some (encode ⟨[Json.str "a"], "T", "H"⟩) ∧
    [Json.str "a"] ≠ [Json.str "a", Json.str "b"] := by
  refine ⟨rfl, rfl, by decide⟩

/-- C1 (amended): `removeLabel` never fails and never signals
`IndexOutOfRange`.  It erases the splice-clamped position — the exact
element for an in-range index, nothing for an index ≥ length, counting from
the end (clamped to the front) for a negative index — and in every case
persists the resulting record under the active document's key. -/
theorem removeLabel_spec (host : Host) (e : Engine) (i : Int) :
    (removeLabel host i e).labels
        = e.labels.eraseIdx
            (if i < 0 then ((e.labels.length : Int) + i).toNat else i.toNat) ∧
    getItem (removeLabel host i e).store (getStorageKey host.docId)
        = some (encode ⟨(removeLabel host i e).labels, host.title, host.href⟩) := by
  constructor
  · show spliceRemoveOne e.labels i = _
    rw [spliceRemoveOne_eq_eraseIdx, eraseIdx_spliceIndex]
  · exact getItem_setItem_self _ _ _

/-! C6: the drop-handler reorder. -/

/-- C6: for distinct in-range indices the reorder is splice-remove at
`fromIndex` followed by splice-insert at `toIndex` against the shortened
array (not a swap), and applying it again with the indices exchanged
restores the original sequence. -/
theorem reorderLabel_spec (l : List Json) (i j : Nat)
    (hi : i < l.length) (hj : j < l.length) (hij : i ≠ j) :
    reorderLabel l i j = (l.eraseIdx i).insertIdx j (l.get ⟨i, hi⟩) ∧
    reorderLabel (reorderLabel l i j) j i = l := by
  have hx : l.get? i = some (l.get ⟨i, hi⟩) := List.get?_eq_get hi
  have hmlen : (l.eraseIdx i).length = l.length - 1 := by
    rw [List.length_eraseIdx]; simp [hi]
  have hjm : j ≤ (l.eraseIdx i).length := by omega
  have him : i ≤ (l.eraseIdx i).length := by omega
  have h1 : reorderLabel l i j = (l.eraseIdx i).insertIdx j (l.get ⟨i, hi⟩) := by
    rw [reorderLabel_eq_of_get_eq l i j _ hx, ← List.eraseIdx_eq_take_drop_succ]
    exact spliceInsertOne_eq_insertIdx _ j _ hjm
  refine ⟨h1, ?_⟩
  rw [h1]
  have hr1len : ((l.eraseIdx i).insertIdx j (l.get ⟨i, hi⟩)).length = l.length := by
    rw [List.length_insertIdx j _ hjm]; omega
  have hjr : j < ((l.eraseIdx i).insertIdx j (l.get ⟨i, hi⟩)).length := by omega
  have hget : ((l.eraseIdx i).insertIdx j (l.get ⟨i, hi⟩)).get? j
      = some (l.get ⟨i, hi⟩) := by
    rw [List.get?_eq_getElem?, List.getElem?_eq_getElem hjr]
    exact congrArg some (List.getElem_insertIdx_self _ _ j hjm)
  rw [reorderLabel_eq_of_get_eq _ j i _ hget, ← List.eraseIdx_eq_take_drop_succ,
    List.eraseIdx_insertIdx, spliceInsertOne_eq_insertIdx _ i _ him]
  exact insertIdx_get_eraseIdx l i hi

/-- Witness for C6 at `["a","b","c"]`, moving index 0 to index 2 and
back. -/
theorem reorderLabel_spec_witness :
    reorderLabel [Json.str "a", Json.str "b", Json.str "c"] 0 2
        = [Json.str "b", Json.str "c", Json.str "a"] ∧
    reorderLabel (reorderLabel [Json.str "a", Json.str "b", Json.str "c"] 0 2) 2 0
        = [Json.str "a", Json.str "b", Json.str "c"] := by
  have h := reorderLabel_spec [Json.str "a", Json.str "b", Json.str "c"] 0 2
    (by decide) (by decide) (by decide)
  exact ⟨h.1.trans (by decide), h.2⟩

/-! C4 and C10: the divergence check. -/

/-- C4: when the active document's stored value re-reads as the labels
sequence `cur` — stored either as a bare legacy array or as a current
record object — the divergence check invokes the refresh callback exactly
once and replaces both the in-memory labels and the last-known snapshot iff
`cur` differs (order-sensitively, by value) from the last-known snapshot;
when they are identical nothing is invoked and nothing changes.  (The
string comparison of the stringified arrays in the source coincides with
list equality by injectivity of `stringify`.) -/
theorem checkAndReloadLabels_spec (host : Host) (e : Engine) (cur : List Json)
    (t u : String)
    (hread : getItem e.store (getStorageKey host.docId)
          = some (stringify (Json.arrOf cur))
        ∨ getItem e.store (getStorageKey host.docId)
          = some (stringify (encodeRecordJson cur t u))) :
    checkAndReloadLabels host e =
      if cur = e.lastKnown then (e, 0)
      else ({ e with labels := cur, lastKnown := cur }, 1) := by
  have hcur : readCurrentLabels e.store (getStorageKey host.docId) = some cur := by
    rcases hread with h | h
    · unfold readCurrentLabels
      rw [h]
      simp [parse, stringify, Json.arrOf, JsonList.toList_ofList]
    · unfold readCurrentLabels
      rw [h]
      simp [parse, stringify, encodeRecordJson, labelsField, Json.getField,
        JsonFields.lookup, Json.arrOf, JsonList.toList_ofList]
  unfold checkAndReloadLabels
  rw [hcur]

/-- Witness for C4: last-known `["a","b"]`, substrate now `["a","b","c"]`;
the callback fires exactly once and both snapshots are replaced. -/
theorem checkAndReloadLabels_spec_witness :
    checkAndReloadLabels sampleHost
        ⟨[("gd-labels-cur",
            stringify (Json.arrOf [Json.str "a", Json.str "b", Json.str "c"]))],
         [Json.str "a", Json.str "b"], [Json.str "a", Json.str "b"]⟩
      = (⟨[("gd-labels-cur",
            stringify (Json.arrOf [Json.str "a", Json.str "b", Json.str "c"]))],
          [Json.str "a", Json.str "b", Json.str "c"],
          [Json.str "a", Json.str "b", Json.str "c"]⟩, 1) := by
  have h := checkAndReloadLabels_spec sampleHost
    ⟨[("gd-labels-cur",
        stringify (Json.arrOf [Json.str "a", Json.str "b", Json.str "c"]))],
     [Json.str "a", Json.str "b"], [Json.str "a", Json.str "b"]⟩
    [Json.str "a", Json.str "b", Json.str "c"] "" "" (Or.inl (by decide))
  exact h.trans (by decide)

/-- C10: if the active document's stored value fails to parse, the
divergence check has no effect at all: labels, snapshot and substrate are
unchanged and the refresh callback is not invoked. -/
theorem checkAndReloadLabels_malformed (host : Host) (e : Engine) (m : String)
    (hraw : getItem e.store (getStorageKey host.docId) = some (Raw.malformed m)) :
    checkAndReloadLabels host e = (e, 0) := by
  have hnone : readCurrentLabels e.store (getStorageKey host.docId) = none := by
    unfold readCurrentLabels
    rw [hraw]
    rfl
  unfold checkAndReloadLabels
  rw [hnone]

/-- Witness for C10 at a concrete malformed stored value. -/
theorem checkAndReloadLabels_malformed_witness :
    checkAndReloadLabels sampleHost
        ⟨[("gd-labels-cur", Raw.malformed "oops")], [Json.str "a"], [Json.str "a"]⟩
      = (⟨[("gd-labels-cur", Raw.malformed "oops")], [Json.str "a"], [Json.str "a"]⟩, 0) :=
  checkAndReloadLabels_malformed sampleHost
    ⟨[("gd-labels-cur", Raw.malformed "oops")], [Json.str "a"], [Json.str "a"]⟩
    "oops" (by decide)

/-! C7: legacy (bare array) decoding. -/

/-- C7 is false as stated: a stored bare array `["x","y"]` decodes with the
*reconstructed document URL*, not with the empty string the claim
specifies. -/
theorem legacy_decode_url_not_empty :
    decodeRecord "abc" (Raw.json (Json.arrOf [Json.str "x", Json.str "y"]))
      = some ⟨[Json.str "x", Json.str "y"], "Untitled",
          "https://docs.google.com/document/d/abc/edit"⟩ ∧
    "https://docs.google.com/document/d/abc/edit" ≠ "" :=
  ⟨by decide, by decide⟩

/-- C7 (amended): a stored bare JSON array of strings decodes to
`{labels: that array, title: "Untitled", url: the reconstructed URL
'https://docs.google.com/document/d/<id>/edit'}`, preserving the labels
sequence losslessly; on the load path the labels (and the snapshot) are
taken over losslessly as well. -/
theorem legacy_decode_spec (docId : String) (el : List Json) (host : Host)
    (e : Engine)
    (hstored : getItem e.store (getStorageKey host.docId)
        = some (Raw.json (Json.arrOf el))) :
    decodeRecord docId (Raw.json (Json.arrOf el))
        = some ⟨el, "Untitled", defaultDocUrl docId⟩ ∧
    (loadLabels host e).labels = el ∧ (loadLabels host e).lastKnown = el := by
  refine ⟨?_, ?_⟩
  · simp [decodeRecord, parse, Json.arrOf, JsonList.toList_ofList]
  · unfold loadLabels
    rw [hstored]
    simp [parse, Json.arrOf, JsonList.toList_ofList]

/-- Witness for C7 (amended) at the stored array `["x","y"]`. -/
theorem legacy_decode_spec_witness :
    decodeRecord "abc" (Raw.json (Json.arrOf [Json.str "x", Json.str "y"]))
        = some ⟨[Json.str "x", Json.str "y"], "Untitled", defaultDocUrl "abc"⟩ ∧
    (loadLabels ⟨"abc", "T", "H"⟩
        ⟨[("gd-labels-abc", Raw.json (Json.arrOf [Json.str "x", Json.str "y"]))],
         [], []⟩).labels = [Json.str "x", Json.str "y"] := by
  have h := legacy_decode_spec "abc" [Json.str "x", Json.str "y"] ⟨"abc", "T", "H"⟩
    ⟨[("gd-labels-abc", Raw.json (Json.arrOf [Json.str "x", Json.str "y"]))], [], []⟩
    (by decide)
  exact ⟨h.1, h.2.1⟩

/-! C9: the encode/decode round trip. -/

/-- C9 is false as stated: on the well-formed record
`{labels:["a"], title:"", url:""}` the round trip replaces the empty title
by `"Untitled"` and the empty url by the reconstructed document URL
(`'' || dflt` takes the default on the falsy empty string). -/
theorem decode_encode_not_id :
    decodeRecord "abc" (encode ⟨[Json.str "a"], "", ""⟩)
        = some ⟨[Json.str "a"], "Untitled", defaultDocUrl "abc"⟩ ∧
    (⟨[Json.str "a"], "Untitled", defaultDocUrl "abc"⟩ : LabelRecord)
        ≠ ⟨[Json.str "a"], "", ""⟩ :=
  ⟨by decide, by decide⟩

/-- C9 (amended): on records whose `title` and `url` are non-empty strings,
`decode` after `encode` is the identity (the labels sequence itself is
restored unconditionally). -/
theorem decode_encode_id (docId : String) (r : LabelRecord)
    (ht : r.title ≠ "") (hu : r.url ≠ "") :
    decodeRecord docId (encode r) = some r := by
  unfold decodeRecord encode stringify encodeRecordJson
  simp [parse, labelsField, titleField, urlField, Json.getField,
    JsonFields.lookup, Json.arrOf, JsonList.toList_ofList, ht, hu]

/-- Witness for C9 (amended). -/
theorem decode_encode_id_witness :
    decodeRecord "abc" (encode ⟨[Json.str "a"], "T", "U"⟩)
      = some ⟨[Json.str "a"], "T", "U"⟩ :=
  decode_encode_id "abc" ⟨[Json.str "a"], "T", "U"⟩ (by decide) (by decide)

/-! C8: read paths never write. -/

theorem loadLabels_store (host : Host) (e : Engine) :
    (loadLabels host e).store = e.store := by
  unfold loadLabels
  cases getItem e.store (getStorageKey host.docId) with
  | none => rfl
  | some raw =>
      cases raw with
      | malformed m => rfl
      | json j => cases j <;> rfl

theorem checkAndReloadLabels_store (host : Host) (e : Engine) :
    ((checkAndReloadLabels host e).1).store = e.store := by
  unfold checkAndReloadLabels
  cases readCurrentLabels e.store (getStorageKey host.docId) with
  | none => rfl
  | some cur => by_cases h : cur = e.lastKnown <;> simp [h]

/-- C8: no read path writes to the substrate — load, the divergence check
and the label scan leave the store untouched — while `saveLabels` (the
persist operation) rewrites exactly the active document's key and leaves
every other key's value unchanged. -/
theorem read_paths_do_not_write (host : Host) (e : Engine) (labelName : String) :
    (loadLabels host e).store = e.store ∧
    ((checkAndReloadLabels host e).1).store = e.store ∧
    ((findDocumentsWithLabelRun labelName host e).2).store = e.store ∧
    getItem (saveLabels host e).store (getStorageKey host.docId)
        = some (encode ⟨e.labels, host.title, host.href⟩) ∧
    (∀ k, k ≠ getStorageKey host.docId →
        getItem (saveLabels host e).store k = getItem e.store k) :=
  ⟨loadLabels_store host e, checkAndReloadLabels_store host e, rfl,
    getItem_setItem_self _ _ _, fun _ hk => getItem_setItem_ne _ _ _ _ hk⟩

/-- Witness for C8 at a concrete state and a concrete foreign key. -/
theorem read_paths_do_not_write_witness :
    (loadLabels sampleHost ⟨[], [Json.str "a"], []⟩).store = [] ∧
    getItem (saveLabels sampleHost ⟨[], [Json.str "a"], []⟩).store "zz"
      = getItem ([] : Store) "zz" := by
  have h := read_paths_do_not_write sampleHost ⟨[], [Json.str "a"], []⟩ "q"
  exact ⟨h.1, h.2.2.2.2 "zz" (by decide)⟩

/-! Lemmas about the import loop. -/

theorem JsonFields.lookup_setF_self : ∀ (fs : JsonFields) (k : String) (v : Json),
    (fs.setF k v).lookup k = some v
  | .nil, k, v => by simp [JsonFields.setF, JsonFields.lookup]
  | .cons k0 v0 rest, k, v => by
      by_cases h : k0 = k <;>
        simp [JsonFields.setF, JsonFields.lookup, h,
          JsonFields.lookup_setF_self rest k v]

theorem jsonIncludes_append_self : ∀ (ls : List Json) (x : Json),
    jsonIncludes (ls ++ [x]) x = true
  | [], x => by simp [jsonIncludes]
  | y :: ys, x => by
      by_cases h : y = x <;>
        simp [jsonIncludes, h, jsonIncludes_append_self ys x]

theorem labelsField_setField (fs : JsonFields) (ls : List Json) :
    labelsField ((Json.obj fs).setField "labels" (Json.arrOf ls)) = ls := by
  simp [Json.setField, labelsField, Json.getField, JsonFields.lookup_setF_self,
    Json.arrOf, JsonList.toList_ofList]

theorem setField_obj_shape (fs : JsonFields) (k : String) (v : Json) :
    (Json.obj fs).setField k v = Json.obj (fs.setF k v) := rfl

theorem readExisting_congr (d : Json) (u k : String) (s1 s2 : Store)
    (h : getItem s1 k = getItem s2 k) :
    readExisting d u k s1 = readExisting d u k s2 := by
  unfold readExisting
  rw [h]

theorem readExisting_ok_obj (d : Json) (u k : String) (s : Store) (ex : Json)
    (h : readExisting d u k s = Except.ok ex) : ∃ fs, ex = Json.obj fs := by
  unfold readExisting at h
  cases hget : getItem s k with
  | none =>
      rw [hget] at h
      exact ⟨_, (Except.ok.inj h).symm⟩
  | some raw =>
      rw [hget] at h
      cases raw with
      | malformed m => exact ⟨_, (Except.ok.inj h).symm⟩
      | json j =>
          cases j with
          | arr el => exact ⟨_, (Except.ok.inj h).symm⟩
          | obj fs =>
              simp only [parse] at h
              cases hlf : fs.lookup "labels" with
              | none =>
                  rw [hlf] at h
                  exact ⟨_, (Except.ok.inj h).symm⟩
              | some lv =>
                  rw [hlf] at h
                  cases lv <;> exact ⟨_, (Except.ok.inj h).symm⟩
          | str s' => simp [parse] at h
          | num n => simp [parse] at h
          | bool b => simp [parse] at h
          | null => simp [parse] at h

/-- Reading back a record this import has just written finds the label
present. -/
theorem readExisting_written (d : Json) (u k : String) (s : Store)
    (fs : JsonFields) (ls : List Json) (L : String)
    (hget : getItem s k
      = some (stringify ((Json.obj fs).setField "labels"
          (Json.arrOf (ls ++ [Json.str L]))))) :
    readExisting d u k s
        = Except.ok ((Json.obj fs).setField "labels"
            (Json.arrOf (ls ++ [Json.str L]))) ∧
    jsonIncludes (labelsField ((Json.obj fs).setField "labels"
        (Json.arrOf (ls ++ [Json.str L])))) (Json.str L) = true := by
  constructor
  · unfold readExisting
    rw [hget]
    simp [stringify, parse, setField_obj_shape, JsonFields.lookup_setF_self,
      Json.arrOf]
  · rw [labelsField_setField]
    exact jsonIncludes_append_self ls (Json.str L)

theorem importDoc_skip_url (L : String) (d : Json) (s : Store)
    (h : docUrlField d = none) : importDoc L d s = Except.ok (s, 0) := by
  simp [importDoc, h]

theorem importDoc_skip_id (L : String) (d : Json) (s : Store) (u : String)
    (hu : docUrlField d = some u) (hid : getDocumentIdFromUrl u = none) :
    importDoc L d s = Except.ok (s, 0) := by
  simp [importDoc, hu, hid]

theorem importDoc_present (L : String) (d : Json) (s : Store) (u docId : String)
    (ex : Json)
    (hu : docUrlField d = some u) (hid : getDocumentIdFromUrl u = some docId)
    (hex : readExisting d u (getStorageKey docId) s = Except.ok ex)
    (hin : jsonIncludes (labelsField ex) (Json.str L) = true) :
    importDoc L d s = Except.ok (s, 0) := by
  simp [importDoc, hu, hid, hex, hin]

theorem importDoc_absent (L : String) (d : Json) (s : Store) (u docId : String)
    (ex : Json)
    (hu : docUrlField d = some u) (hid : getDocumentIdFromUrl u = some docId)
    (hex : readExisting d u (getStorageKey docId) s = Except.ok ex)
    (hin : jsonIncludes (labelsField ex) (Json.str L) = false) :
    importDoc L d s
      = Except.ok
          (setItem s (getStorageKey docId)
            (stringify (ex.setField "labels"
              (Json.arrOf (labelsField ex ++ [Json.str L])))), 1) := by
  simp [importDoc, hu, hid, hex, hin]

/-- Full inversion of one loop iteration. -/
theorem importDoc_cases (L : String) (d : Json) (s s'' : Store) (c : Nat)
    (h : importDoc L d s = Except.ok (s'', c)) :
    (s'' = s ∧ c = 0 ∧
      (docUrlField d = none ∨
       (∃ u, docUrlField d = some u ∧ getDocumentIdFromUrl u = none) ∨
       (∃ u docId ex, docUrlField d = some u ∧
          getDocumentIdFromUrl u = some docId ∧
          readExisting d u (getStorageKey docId) s = Except.ok ex ∧
          jsonIncludes (labelsField ex) (Json.str L) = true))) ∨
    (∃ u docId ex, docUrlField d = some u ∧
       getDocumentIdFromUrl u = some docId ∧
       readExisting d u (getStorageKey docId) s = Except.ok ex ∧
       jsonIncludes (labelsField ex) (Json.str L) = false ∧ c = 1 ∧
       s'' = setItem s (getStorageKey docId)
         (stringify (ex.setField "labels"
           (Json.arrOf (labelsField ex ++ [Json.str L]))))) := by
  unfold importDoc at h
  cases hu : docUrlField d with
  | none =>
      simp only [hu, Except.ok.injEq, Prod.mk.injEq] at h
      exact Or.inl ⟨h.1.symm, h.2.symm, Or.inl rfl⟩
  | some u =>
      simp only [hu] at h
      cases hid : getDocumentIdFromUrl u with
      | none =>
          simp only [hid, Except.ok.injEq, Prod.mk.injEq] at h
          exact Or.inl ⟨h.1.symm, h.2.symm, Or.inr (Or.inl ⟨u, rfl, hid⟩)⟩
      | some docId =>
          simp only [hid] at h
          cases hex : readExisting d u (getStorageKey docId) s with
          | error m => simp [hex] at h
          | ok ex =>
              simp only [hex] at h
              cases hin : jsonIncludes (labelsField ex) (Json.str L) with
              | true =>
                  simp only [hin, if_true, Except.ok.injEq, Prod.mk.injEq] at h
                  exact Or.inl ⟨h.1.symm, h.2.symm,
                    Or.inr (Or.inr ⟨u, docId, ex, rfl, hid, hex, hin⟩)⟩
              | false =>
                  simp only [hin, Bool.false_eq_true, if_false, Except.ok.injEq,
                    Prod.mk.injEq] at h
                  exact Or.inr ⟨u, docId, ex, rfl, hid, hex, hin, h.2.symm, h.1.symm⟩

/-- Once an entry has been processed, re-processing it against the
resulting substrate adds nothing and changes nothing. -/
theorem importDoc_stable (L : String) (d : Json) (s s' : Store) (c : Nat)
    (h : importDoc L d s = Except.ok (s', c)) :
    importDoc L d s' = Except.ok (s', 0) := by
  rcases importDoc_cases L d s s' c h with
    ⟨hs, _, hcase⟩ | ⟨u, docId, ex, hu, hid, hex, _, _, hs⟩
  · subst hs
    rcases hcase with h0 | ⟨u, hu, hid⟩ | ⟨u, docId, ex, hu, hid, hex, hin⟩
    · exact importDoc_skip_url L d s' h0
    · exact importDoc_skip_id L d s' u hu hid
    · exact importDoc_present L d s' u docId ex hu hid hex hin
  · obtain ⟨fs, hfs⟩ := readExisting_ok_obj d u (getStorageKey docId) s ex hex
    subst hfs
    subst hs
    have hget := getItem_setItem_self s (getStorageKey docId)
      (stringify ((Json.obj fs).setField "labels"
        (Json.arrOf (labelsField (Json.obj fs) ++ [Json.str L]))))
    have hw := readExisting_written d u (getStorageKey docId) _ fs
      (labelsField (Json.obj fs)) L hget
    exact importDoc_present L d _ u docId _ hu hid hw.1 hw.2

/-- An entry that adds nothing at `s` still adds nothing after any other
entry has been processed. -/
theorem importDoc_noAdd_preserved (L : String) (d d' : Json) (s s'' : Store)
    (c : Nat)
    (hd : importDoc L d s = Except.ok (s, 0))
    (hd' : importDoc L d' s = Except.ok (s'', c)) :
    importDoc L d s'' = Except.ok (s'', 0) := by
  rcases importDoc_cases L d s s 0 hd with
    ⟨_, _, hcase⟩ | ⟨_, _, _, _, _, _, _, hc, _⟩
  · rcases hcase with h0 | ⟨u, hu, hid⟩ | ⟨u, docId, ex, hu, hid, hex, hin⟩
    · exact importDoc_skip_url L d s'' h0
    · exact importDoc_skip_id L d s'' u hu hid
    · rcases importDoc_cases L d' s s'' c hd' with
        ⟨hs2, _, _⟩ | ⟨u', dId', ex', _, _, hex', _, _, hs2⟩
      · subst hs2
        exact importDoc_present L d _ u docId ex hu hid hex hin
      · obtain ⟨fs', hfs'⟩ := readExisting_ok_obj d' u' (getStorageKey dId') s ex' hex'
        subst hfs'
        subst hs2
        by_cases hkk : getStorageKey dId' = getStorageKey docId
        · rw [hkk]
          have hget := getItem_setItem_self s (getStorageKey docId)
            (stringify ((Json.obj fs').setField "labels"
              (Json.arrOf (labelsField (Json.obj fs') ++ [Json.str L]))))
          have hw := readExisting_written d u (getStorageKey docId) _ fs'
            (labelsField (Json.obj fs')) L hget
          exact importDoc_present L d _ u docId _ hu hid hw.1 hw.2
        · have hgi := getItem_setItem_ne s (getStorageKey dId') (getStorageKey docId)
            (stringify ((Json.obj fs').setField "labels"
              (Json.arrOf (labelsField (Json.obj fs') ++ [Json.str L]))))
            (fun hh => hkk hh.symm)
          have hex2 : readExisting d u (getStorageKey docId)
              (setItem s (getStorageKey dId')
                (stringify ((Json.obj fs').setField "labels"
                  (Json.arrOf (labelsField (Json.obj fs') ++ [Json.str L])))))
              = Except.ok ex := by
            rw [readExisting_congr d u (getStorageKey docId) _ s hgi]
            exact hex
          exact importDoc_present L d _ u docId ex hu hid hex2 hin
  · exact absurd hc (by decide)

/-- The no-add property of an entry survives the processing of the rest of
the loop. -/
theorem importLoop_preserves_noAdd (L : String) (d : Json) :
    ∀ (rest : List Json) (s s' : Store) (c c' : Nat),
      importDoc L d s = Except.ok (s, 0) →
      importLoop L rest s c = LoopResult.ok s' c' →
      importDoc L d s' = Except.ok (s', 0)
  | [], s, s', c, c', hd, hloop => by
      simp only [importLoop, LoopResult.ok.injEq] at hloop
      rw [← hloop.1]
      exact hd
  | d' :: rest, s, s', c, c', hd, hloop => by
      unfold importLoop at hloop
      cases hd' : importDoc L d' s with
      | error m => simp [hd'] at hloop
      | ok p =>
          obtain ⟨s1, a⟩ := p
          simp only [hd'] at hloop
          exact importLoop_preserves_noAdd L d rest s1 s' (c + a) c'
            (importDoc_noAdd_preserved L d d' s s1 a hd hd') hloop

/-- After a completed loop, every processed entry adds nothing against the
final substrate. -/
theorem importLoop_establishes (L : String) :
    ∀ (docs : List Json) (s s' : Store) (c c' : Nat),
      importLoop L docs s c = LoopResult.ok s' c' →
      ∀ d ∈ docs, importDoc L d s' = Except.ok (s', 0)
  | [], _, _, _, _, _ => by
      intro d hd
      exact absurd hd (List.not_mem_nil d)
  | d0 :: rest, s, s', c, c', hloop => by
      intro d hd
      unfold importLoop at hloop
      cases hd0 : importDoc L d0 s with
      | error m => simp [hd0] at hloop
      | ok p =>
          obtain ⟨s1, a⟩ := p
          simp only [hd0] at hloop
          rcases List.mem_cons.mp hd with rfl | hmem
          · exact importLoop_preserves_noAdd L d rest s1 s' (c + a) c'
              (importDoc_stable L d s s1 a hd0) hloop
          · exact importLoop_establishes L rest s1 s' (c + a) c' hloop d hmem

/-- A loop all of whose entries add nothing returns the substrate and the
counter unchanged. -/
theorem importLoop_noAdd_all (L : String) :
    ∀ (docs : List Json) (s : Store) (c : Nat),
      (∀ d ∈ docs, importDoc L d s = Except.ok (s, 0)) →
      importLoop L docs s c = LoopResult.ok s c
  | [], _, _, _ => rfl
  | d0 :: rest, s, c, h => by
      unfold importLoop
      simp only [h d0 (List.mem_cons_self d0 rest), Nat.add_zero]
      exact importLoop_noAdd_all L rest s c
        (fun d hd => h d (List.mem_cons_of_mem d0 hd))

/-- Inversion of a successful `importLabel` run. -/
theorem importLabel_success_inv (host : Host) (input : Raw) (e : Engine)
    (hs : (importLabel host input e).1.success = true) :
    ∃ pd L docs s' n,
      input = Raw.json pd ∧ payloadLabel pd = some L ∧
      payloadDocs pd = some docs ∧
      importLoop L docs e.store 0 = LoopResult.ok s' n ∧
      importLabel host input e
        = (⟨true, "Imported label \"" ++ L ++ "\" to " ++ Nat.repr n
              ++ " document(s).", none⟩,
           n, loadLabels host { e with store := s' }) := by
  cases input with
  | malformed m => simp [importLabel] at hs
  | json pd =>
      cases hL : payloadLabel pd with
      | none => simp [importLabel, hL] at hs
      | some L =>
          cases hD : payloadDocs pd with
          | none => simp [importLabel, hL, hD] at hs
          | some docs =>
              cases hloop : importLoop L docs e.store 0 with
              | err s' n m => simp [importLabel, hL, hD, hloop] at hs
              | ok s' n =>
                  refine ⟨pd, L, docs, s', n, rfl, hL, hD, hloop, ?_⟩
                  simp [importLabel, hL, hD, hloop]

/-- A successful import followed by the same import again: the second run
succeeds, counts nothing, and leaves the substrate unchanged. -/
theorem importLabel_idem_aux (host : Host) (input : Raw) (e : Engine)
    (hs : (importLabel host input e).1.success = true) :
    (importLabel host input ((importLabel host input e).2.2)).1.success = true ∧
    (importLabel host input ((importLabel host input e).2.2)).2.1 = 0 ∧
    ((importLabel host input ((importLabel host input e).2.2)).2.2).store
      = ((importLabel host input e).2.2).store := by
  obtain ⟨pd, L, docs, s', n, hinp, hL, hD, hloop, heq⟩ :=
    importLabel_success_inv host input e hs
  subst hinp
  generalize hE : (importLabel host (Raw.json pd) e).2.2 = e1
  have hstore : e1.store = s' := by
    rw [← hE, heq]
    exact loadLabels_store host _
  have hloop2 : importLoop L docs s' 0 = LoopResult.ok s' 0 :=
    importLoop_noAdd_all L docs s' 0
      (importLoop_establishes L docs e.store s' 0 n hloop)
  refine ⟨?_, ?_, ?_⟩ <;>
    simp [importLabel, hL, hD, hstore, hloop2, loadLabels_store]

/-! C2: isolation of failures in the import loop. -/

/-- C2 is false as stated: a decode failure for one entry is *not* skipped.
With the target record stored malformed, the import processes the entry
against a fresh default record: the label is appended, persisted over the
malformed value, and counted. -/
theorem import_decode_failure_processed :
    (importLabel sampleHost (Raw.json samplePayload)
        ⟨[("gd-labels-AAA", Raw.malformed "bad")], [], []⟩).2.1 = 1 ∧
    getItem ((importLabel sampleHost (Raw.json samplePayload)
        ⟨[("gd-labels-AAA", Raw.malformed "bad")], [], []⟩).2.2).store
        "gd-labels-AAA"
      = some (Raw.json sampleStoredRecord) :=
  ⟨by decide, by decide⟩

/-- C2 (amended): in the import loop an entry lacking a url and an entry
whose url yields no document id are skipped — nothing written, nothing
counted — and processing continues with the remaining entries; an entry
whose stored value fails to decode is processed against a fresh default
record (the label is appended, persisted and counted) and processing also
continues; a payload-level validation failure or malformed payload JSON
returns a failed ImportResult with no write to the substrate having
occurred. -/
theorem import_entry_isolation (L : String) (d : Json) (rest : List Json)
    (s : Store) (c : Nat) :
    (docUrlField d = none →
        importLoop L (d :: rest) s c = importLoop L rest s c) ∧
    (∀ u, docUrlField d = some u → getDocumentIdFromUrl u = none →
        importLoop L (d :: rest) s c = importLoop L rest s c) ∧
    (∀ u docId m, docUrlField d = some u →
        getDocumentIdFromUrl u = some docId →
        getItem s (getStorageKey docId) = some (Raw.malformed m) →
        importLoop L (d :: rest) s c
          = importLoop L rest
              (setItem s (getStorageKey docId)
                (stringify ((defaultExisting d u).setField "labels"
                  (Json.arrOf [Json.str L])))) (c + 1)) ∧
    (∀ (host : Host) (pd : Json) (e : Engine),
        payloadLabel pd = none ∨ payloadDocs pd = none →
        importLabel host (Raw.json pd) e
          = (⟨false, "Invalid JSON format. Expected \x7b label, documents \x7d",
              none⟩, 0, e)) ∧
    (∀ (host : Host) (m : String) (e : Engine),
        importLabel host (Raw.malformed m) e
          = (⟨false, "Invalid JSON: " ++ m, none⟩, 0, e)) := by
  refine ⟨?_, ?_, ?_, ?_, ?_⟩
  · intro h0
    simp [importLoop, importDoc_skip_url L d s h0]
  · intro u hu hid
    simp [importLoop, importDoc_skip_id L d s u hu hid]
  · intro u docId m hu hid hgi
    have hex : readExisting d u (getStorageKey docId) s
        = Except.ok (defaultExisting d u) := by
      unfold readExisting
      rw [hgi]
      rfl
    have hlf : labelsField (defaultExisting d u) = [] := by
      simp [defaultExisting, labelsField, Json.getField, JsonFields.lookup,
        Json.arrOf, JsonList.ofList, JsonList.toList]
    have hin : jsonIncludes (labelsField (defaultExisting d u)) (Json.str L)
        = false := by
      rw [hlf]
      rfl
    have hstep := importDoc_absent L d s u docId (defaultExisting d u)
      hu hid hex hin
    rw [hlf] at hstep
    simp [importLoop, hstep]
  · intro host pd e h
    cases hL : payloadLabel pd with
    | none =>
        cases hD : payloadDocs pd <;> simp [importLabel, hL]
    | some L' =>
        rcases h with h | h
        · rw [hL] at h
          exact absurd h (by simp)
        · simp [importLabel, hL, h]
  · intro host m e
    rfl

/-- Witness for C2 at concrete entries: an entry with no url is skipped; an
entry with an unrecognized url is skipped; the malformed-stored entry is
written and counted; a payload missing its `label` fails with no write; a
malformed payload fails with no write. -/
theorem import_entry_isolation_witness :
    importLoop "q" [Json.obj .nil] [] 0 = importLoop "q" [] [] 0 ∧
    importLoop "q" [Json.obj (.cons "url" (Json.str "https://example.com/x") .nil)]
        [] 0 = importLoop "q" [] [] 0 ∧
    importLoop "q" [sampleDoc] [("gd-labels-AAA", Raw.malformed "bad")] 0
      = importLoop "q" []
          (setItem [("gd-labels-AAA", Raw.malformed "bad")] (getStorageKey "AAA")
            (stringify ((defaultExisting sampleDoc sampleUrl).setField "labels"
              (Json.arrOf [Json.str "q"])))) (0 + 1) ∧
    importLabel sampleHost
        (Raw.json (Json.obj (.cons "documents" (Json.arrOf []) .nil))) ⟨[], [], []⟩
      = (⟨false, "Invalid JSON format. Expected \x7b label, documents \x7d", none⟩,
         0, ⟨[], [], []⟩) ∧
    importLabel sampleHost (Raw.malformed "oops") ⟨[], [], []⟩
      = (⟨false, "Invalid JSON: " ++ "oops", none⟩, 0, ⟨[], [], []⟩) := by
  refine ⟨?_, ?_, ?_, ?_, ?_⟩
  · exact (import_entry_isolation "q" (Json.obj .nil) [] [] 0).1 (by decide)
  · exact (import_entry_isolation "q"
      (Json.obj (.cons "url" (Json.str "https://example.com/x") .nil)) [] [] 0).2.1
      "https://example.com/x" (by decide) (by decide)
  · exact (import_entry_isolation "q" sampleDoc []
      [("gd-labels-AAA", Raw.malformed "bad")] 0).2.2.1 sampleUrl "AAA" "bad"
      (by decide) (by decide) (by decide)
  · exact (import_entry_isolation "q" sampleDoc [] [] 0).2.2.2.1 sampleHost
      (Json.obj (.cons "documents" (Json.arrOf []) .nil)) ⟨[], [], []⟩
      (Or.inl (by decide))
  · exact (import_entry_isolation "q" sampleDoc [] [] 0).2.2.2.2 sampleHost
      "oops" ⟨[], [], []⟩

/-! C3: the shape of a successful import result. -/

/-- C3 is false as stated: a successful import's result object has *no*
`importedCount` field; the count appears only inside the message. -/
theorem importLabel_no_count_field :
    ((importLabel sampleHost (Raw.json samplePayload) ⟨[], [], []⟩).1).importedCount
        = none ∧
    ((importLabel sampleHost (Raw.json samplePayload) ⟨[], [], []⟩).1).success
        = true ∧
    ((importLabel sampleHost (Raw.json samplePayload) ⟨[], [], []⟩).1).message
        = "Imported label \"q\" to 1 document(s)." ∧
    (importLabel sampleHost (Raw.json samplePayload) ⟨[], [], []⟩).2.1 = 1 :=
  ⟨by decide, by decide, by decide, by decide⟩

/-- C3 (amended): a successful import of a payload with label `L` returns
`{success: true, message: "Imported label \"L\" to N document(s)."}` where
`N` is the number of documents to which `L` was newly appended (the final
loop counter); the result object carries no `importedCount` field (modelled
as `none`). -/
theorem importLabel_success_message (host : Host) (pd : Json) (e : Engine)
    (L : String) (docs : List Json) (s' : Store) (n : Nat)
    (hL : payloadLabel pd = some L) (hD : payloadDocs pd = some docs)
    (hloop : importLoop L docs e.store 0 = LoopResult.ok s' n) :
    importLabel host (Raw.json pd) e
      = (⟨true,
          "Imported label \"" ++ L ++ "\" to " ++ Nat.repr n ++ " document(s).",
          none⟩,
         n, loadLabels host { e with store := s' }) := by
  simp [importLabel, hL, hD, hloop]

/-- Witness for C3 at the sample payload over an empty substrate. -/
theorem importLabel_success_message_witness :
    importLabel sampleHost (Raw.json samplePayload) ⟨[], [], []⟩
      = (⟨true,
          "Imported label \"" ++ "q" ++ "\" to " ++ Nat.repr 1 ++ " document(s).",
          none⟩,
         1, loadLabels sampleHost
              ⟨[(getStorageKey "AAA", Raw.json sampleStoredRecord)], [], []⟩) :=
  importLabel_success_message sampleHost samplePayload ⟨[], [], []⟩ "q" [sampleDoc]
    [(getStorageKey "AAA", Raw.json sampleStoredRecord)] 1
    (by decide) (by decide) (by decide)

/-! C5: no duplicate append, idempotent import. -/

/-- C5: the import appends the payload's label to a target record only when
it is not already an element of that record's labels — when present,
nothing is written and nothing counted — and hence a successful import run
immediately re-imported yields an internal importedCount of 0, with the
substrate unchanged. -/
theorem import_idempotent (L : String) (d : Json) (s : Store)
    (u docId : String) (ex : Json)
    (hu : docUrlField d = some u) (hid : getDocumentIdFromUrl u = some docId)
    (hex : readExisting d u (getStorageKey docId) s = Except.ok ex)
    (hin : jsonIncludes (labelsField ex) (Json.str L) = true) :
    importDoc L d s = Except.ok (s, 0) ∧
    (∀ (host : Host) (input : Raw) (e : Engine),
      (importLabel host input e).1.success = true →
      (importLabel host input ((importLabel host input e).2.2)).1.success = true ∧
      (importLabel host input ((importLabel host input e).2.2)).2.1 = 0 ∧
      ((importLabel host input ((importLabel host input e).2.2)).2.2).store
        = ((importLabel host input e).2.2).store) :=
  ⟨importDoc_present L d s u docId ex hu hid hex hin,
   fun host input e hs => importLabel_idem_aux host input e hs⟩

/-- Witness for C5: document `AAA` already carries `"q"`, so its entry adds
nothing; and re-importing the sample payload right after importing it
counts 0. -/
theorem import_idempotent_witness :
    importDoc "q" sampleDoc sampleStore = Except.ok (sampleStore, 0) ∧
    (importLabel sampleHost (Raw.json samplePayload)
        ((importLabel sampleHost (Raw.json samplePayload) ⟨[], [], []⟩).2.2)).2.1
      = 0 := by
  have h := import_idempotent "q" sampleDoc sampleStore sampleUrl "AAA"
    sampleStoredRecord (by decide) (by decide) rfl (by decide)
  exact ⟨h.1,
    (h.2 sampleHost (Raw.json samplePayload) ⟨[], [], []⟩ (by decide)).2.1⟩

end GDLabels
